import Mathlib

/-!
Shallow embedding of the PGB event-scheduler backend (TypeScript/Express/Mongoose)
route handlers that the verified claims are about.

Sources embedded here:
* `src/routes/events.ts` — the event workflow route handlers
  (requirement notes / per-allocation status updates, requirement re-tagging,
  add-department, PATCH `/:id/status`, PUT `/:id/status`,
  the availability recomputation performed by GET `/my` and GET `/tagged`);
* the auto-complete sweep `autoCompleteEvents` from the scheduler module;
* `cleanupPastLocationAvailabilities` (`src/routes/locationAvailability.ts`) and
  `cleanupPastResourceAvailabilities` (resource-availability routes).

Conventions of the embedding:
* A JS object used as a string-keyed map (`departmentRequirements`) becomes an
  association list `List (String × List Allocation)`; JS objects preserve string
  key insertion order, deleting a key removes the pair and adding a key appends
  at the end, which the association-list operations below reproduce.
* JS timestamps (`Date`) are minutes since an arbitrary epoch (`Nat`); an event's
  `endDate`/slot `endDate` is a day index and `setHours(h, m, 0, 0)` turns it
  into `day * 1440 + h * 60 + m`.
* `YYYY-MM-DD` date strings are Lean `String`s; the document store's `$lt` on
  strings is lexicographic, matching `String` order on ASCII dates.
* JS truthiness of an optional number / string is made explicit
  (`none` and `some 0` / `some ""` are falsy).
* Each handler is a pure function from (caller data, event/record state, request
  body) to a result record carrying the HTTP status, the success flag and the
  post-state; handlers that ignore a piece of caller data still take it as an
  argument, mirroring the fact that the authenticated user is available to the
  handler.
-/

namespace PGB

/-- One Requirement Allocation embedded in an Event's `departmentRequirements`
map (`src/routes/events.ts`; schema in the Event model). -/
structure Allocation where
  id : String
  name : String
  type : String
  selected : Bool
  quantity : Option Nat
  notes : Option String
  totalQuantity : Option Nat
  isAvailable : Option Bool
  availabilityNotes : String
  status : String
  requirementsStatus : Option String
  declineReason : Option String
  departmentNotes : Option String
  lastUpdated : Option String
  deriving DecidableEq

/-- `departmentRequirements`: JS object keyed by department name, as an
insertion-ordered association list. -/
abbrev ReqMap := List (String × List Allocation)

/-- One entry of an event's `dateTimeSlots` array (multi-day events); only the
end date/time matters for the claims here. -/
structure DateTimeSlot where
  endDay : Nat
  endH : Nat
  endM : Nat
  deriving DecidableEq

/-- The Event document fields the embedded handlers read or write. -/
structure Event where
  status : String
  reason : Option String
  taggedDepartments : List String
  departmentRequirements : ReqMap
  endDateDay : Nat
  endTimeH : Nat
  endTimeM : Nat
  dateTimeSlots : List DateTimeSlot
  startDateISO : String
  deriving DecidableEq

/-- Result of a mutating route handler: HTTP status code, the `success` flag of
the JSON envelope, and the event state after the handler ran. -/
structure EventResult where
  httpStatus : Nat
  success : Bool
  event : Event
  deriving DecidableEq

/-- Result of the per-allocation handlers, additionally recording whether the
best-effort Notification/StatusNotification rows were persisted. -/
structure ReqStatusResult where
  httpStatus : Nat
  success : Bool
  event : Event
  notifSaved : Bool
  deriving DecidableEq

/-- JS truthiness of an optional string (`undefined`, `''` are falsy). -/
def truthyStr : Option String → Bool
  | none => false
  | some s => s ≠ ""

/-- JS truthiness of an optional number (`undefined`, `0` are falsy). -/
def truthyNat : Option Nat → Bool
  | none => false
  | some n => n ≠ 0

/-! ### PATCH `/api/events/:id/status` (`src/routes/events.ts` lines 462–536)

Validates the status, stores the reason for rejected/cancelled, releases every
allocation on approval, resets every allocation on cancellation, then applies
the update.  The handler reads the authenticated user but never checks its
role. -/

/-- Approval branch: set `requirementsStatus = 'released'` on every allocation
of every department (lines 496–514). -/
def releaseAll (m : ReqMap) : ReqMap :=
  m.map (fun p => (p.1, p.2.map (fun a => { a with requirementsStatus := some "released" })))

/-- Cancellation branch: reset every allocation's `status` to `'pending'` and
clear `declineReason` and `notes` (lines 516–536). -/
def resetAll (m : ReqMap) : ReqMap :=
  m.map (fun p =>
    (p.1, p.2.map (fun a =>
      { a with status := "pending", declineReason := none, notes := none })))

/-- The PATCH `/:id/status` handler.  `role` is the authenticated caller's role;
the handler has it available but never reads it. -/
def patchEventStatus (role : String) (e : Event) (st : String)
    (reason : Option String) : EventResult :=
  if ¬ (st = "approved" ∨ st = "rejected" ∨ st = "submitted" ∨ st = "cancelled") then
    ⟨400, false, e⟩
  else
    let e1 := if truthyStr reason ∧ (st = "rejected" ∨ st = "cancelled") then
        { e with reason := reason } else e
    let e2 := if st = "approved" then
        { e1 with departmentRequirements := releaseAll e1.departmentRequirements } else e1
    let e3 := if st = "cancelled" then
        { e2 with departmentRequirements := resetAll e2.departmentRequirements } else e2
    ⟨200, true, { e3 with status := st }⟩

/-! ### PUT `/api/events/:id/status` (`src/routes/events.ts` lines 1284–1330)

The sibling endpoint, which does enforce the admin check before updating the
bare status field. -/

def putEventStatus (role : String) (e : Event) (st : String) : EventResult :=
  if role ≠ "admin" then ⟨403, false, e⟩
  else if ¬ (st = "draft" ∨ st = "submitted" ∨ st = "approved" ∨ st = "rejected" ∨
      st = "completed") then ⟨400, false, e⟩
  else ⟨200, true, { e with status := st }⟩

/-! ### Per-allocation handlers (`src/routes/events.ts` lines 52–261)

Both handlers scan the department lists in object order, take the first
department whose list contains an allocation with the requested id, and mutate
that (first-matching) allocation in place. -/

/-- `requirements.find(r => r.id === requirementId)` across the department
lists, in object order: the allocation the handlers mutate. -/
def findFirstAlloc (m : ReqMap) (rid : String) : Option Allocation :=
  match m with
  | [] => none
  | (_, l) :: rest =>
    match l.find? (fun a => a.id == rid) with
    | some a => some a
    | none => findFirstAlloc rest rid

/-- Apply `f` to the first allocation of `l` whose id is `rid`. -/
def updateFirstIn (l : List Allocation) (rid : String) (f : Allocation → Allocation) :
    List Allocation :=
  match l with
  | [] => []
  | a :: t => if a.id == rid then f a :: t else a :: updateFirstIn t rid f

/-- Apply `f` to the first allocation with id `rid` found in the first
department list that contains one. -/
def updateFirstInMap (m : ReqMap) (rid : String) (f : Allocation → Allocation) : ReqMap :=
  match m with
  | [] => []
  | (d, l) :: rest =>
    if l.any (fun a => a.id == rid) then (d, updateFirstIn l rid f) :: rest
    else (d, l) :: updateFirstInMap rest rid f

/-- PATCH `/:eventId/requirements/:requirementId/status` (lines 122–261).
Checks the caller's department against `taggedDepartments` (403), finds the
allocation (404 if absent), sets its `status` to the supplied string with no
validation, stamps `lastUpdated`, stores the decline reason only when the new
status is `'declined'` and a reason was supplied, saves the event, and then —
only when the status actually changed — tries to persist the
Notification/StatusNotification rows inside a try/catch whose failure
(`notifFails`) is swallowed; the response is 200/success regardless. -/
def updateRequirementStatus (callerDept : String) (e : Event) (rid : String)
    (st : String) (declineReason : Option String) (nowIso : String)
    (notifFails : Bool) : ReqStatusResult :=
  if ¬ e.taggedDepartments.contains callerDept then ⟨403, false, e, false⟩
  else
    match findFirstAlloc e.departmentRequirements rid with
    | none => ⟨404, false, e, false⟩
    | some a0 =>
      let oldStatus := if a0.status = "" then "pending" else a0.status
      let f : Allocation → Allocation := fun a =>
        let a1 := { a with status := st, lastUpdated := some nowIso }
        if st = "declined" ∧ truthyStr declineReason then
          { a1 with declineReason := declineReason } else a1
      let e' := { e with departmentRequirements := updateFirstInMap e.departmentRequirements rid f }
      let saved := if oldStatus ≠ st then ¬ notifFails else false
      ⟨200, true, e', saved⟩

/-- PATCH `/:eventId/requirements/:requirementId/notes` (lines 52–120): same
shape, setting `departmentNotes` and stamping `lastUpdated`. -/
def updateRequirementNotes (callerDept : String) (e : Event) (rid : String)
    (departmentNotes : Option String) (nowIso : String) : ReqStatusResult :=
  if ¬ e.taggedDepartments.contains callerDept then ⟨403, false, e, false⟩
  else
    match findFirstAlloc e.departmentRequirements rid with
    | none => ⟨404, false, e, false⟩
    | some _ =>
      let f : Allocation → Allocation := fun a =>
        { a with departmentNotes := departmentNotes, lastUpdated := some nowIso }
      ⟨200, true,
        { e with departmentRequirements := updateFirstInMap e.departmentRequirements rid f },
        true⟩

/-! ### PATCH `/:eventId/requirements/:requirementId/departments`
(`src/routes/events.ts` lines 286–368)

Re-tagging: remove the allocation from the first department list containing it
(deleting that key if the list becomes empty), append a copy into each target
department's list (creating keys at the end as needed), then overwrite
`taggedDepartments` with `Object.keys(departmentRequirements)`.  The handler
never consults the caller's department or role. -/

/-- Find and remove the first allocation with id `rid`: returns the allocation
and the map after removal (the key is dropped when its list becomes empty). -/
def removeFirstAlloc (m : ReqMap) (rid : String) : Option (Allocation × ReqMap) :=
  match m with
  | [] => none
  | (d, l) :: rest =>
    match l.find? (fun a => a.id == rid) with
    | some a =>
      let l' := l.filter (fun a => a.id ≠ rid)
      some (a, if l'.isEmpty then rest else (d, l') :: rest)
    | none =>
      match removeFirstAlloc rest rid with
      | none => none
      | some (a, m') => some (a, (d, l) :: m')

/-- `departmentRequirements[newDept].push(requirement)`, creating the key (at
the end, per JS object insertion order) when absent. -/
def pushAlloc (m : ReqMap) (dept : String) (a : Allocation) : ReqMap :=
  if m.any (fun p => p.1 == dept) then
    m.map (fun p => if p.1 == dept then (p.1, p.2 ++ [a]) else p)
  else
    m ++ [(dept, [a])]

/-- The re-tagging handler.  `callerDept` is the authenticated caller's
department; the handler has it available but never reads it. -/
def changeRequirementDepartments (callerDept : String) (e : Event) (rid : String)
    (departments : List String) : EventResult :=
  if departments.isEmpty then ⟨400, false, e⟩
  else
    match removeFirstAlloc e.departmentRequirements rid with
    | none => ⟨404, false, e⟩
    | some (a, m1) =>
      let m2 := departments.foldl (fun acc d => pushAlloc acc d a) m1
      ⟨200, true,
        { e with departmentRequirements := m2, taggedDepartments := m2.map (·.1) }⟩

/-! ### POST `/:eventId/add-department` (`src/routes/events.ts` lines 371–459)

Adds the selected requirements from the request body to the named department's
list (skipping duplicates by name), then appends the department name to
`taggedDepartments` if absent — even when no requirement was selected and the
department's list stayed empty.  The handler never consults the caller's
department or role. -/

/-- One entry of the `requirements` array in the add-department request body. -/
structure NewRequirement where
  id : String
  name : String
  type : String
  selected : Bool
  quantity : Option Nat
  notes : Option String
  totalQuantity : Option Nat
  baseQuantity : Option Nat
  isAvailable : Option Bool
  availabilityNotes : Option String
  deriving DecidableEq

/-- The allocation object pushed for a selected new requirement
(`status: 'pending'`, quantities passed through JS `||` chains). -/
def allocOfNewReq (nr : NewRequirement) : Allocation :=
  { id := nr.id
    name := nr.name
    type := nr.type
    selected := true
    quantity := if truthyNat nr.quantity then nr.quantity else none
    notes := some (nr.notes.getD "")
    totalQuantity := if truthyNat nr.totalQuantity then nr.totalQuantity
      else if truthyNat nr.baseQuantity then nr.baseQuantity else none
    isAvailable := nr.isAvailable
    availabilityNotes := nr.availabilityNotes.getD ""
    status := "pending"
    requirementsStatus := none
    declineReason := none
    departmentNotes := none
    lastUpdated := none }

/-- Fold of the handler's `requirements.forEach`: push each selected
requirement whose name is not already present in the department's list. -/
def addSelectedReqs (l : List Allocation) (reqs : List NewRequirement) : List Allocation :=
  reqs.foldl (fun acc nr =>
    if nr.selected then
      if acc.any (fun r => r.name == nr.name) then acc
      else acc ++ [allocOfNewReq nr]
    else acc) l

/-- The add-department handler.  `callerDept` is the authenticated caller's
department; the handler has it available but never reads it. -/
def addDepartment (callerDept : String) (e : Event) (departmentName : String)
    (reqs : List NewRequirement) : EventResult :=
  if departmentName = "" ∨ reqs.isEmpty then ⟨400, false, e⟩
  else
    let m0 := e.departmentRequirements
    let m1 := if m0.any (fun p => p.1 == departmentName) then m0
      else m0 ++ [(departmentName, [])]
    let m2 := m1.map (fun p =>
      if p.1 == departmentName then (p.1, addSelectedReqs p.2 reqs) else p)
    let tags := if e.taggedDepartments.contains departmentName then
        e.taggedDepartments else e.taggedDepartments ++ [departmentName]
    ⟨200, true, { e with departmentRequirements := m2, taggedDepartments := tags }⟩

/-! ### The auto-complete sweep (`autoCompleteEvents` in the scheduler module)

Both revisions query events with status not in `['completed', 'cancelled']` and,
for each, build the end datetime from `event.endDate` and `event.endTime` via
`setHours(hours, minutes, 0, 0)`, completing the event when it is `<= now`.
Neither revision reads `dateTimeSlots`. -/

/-- `new Date(event.endDate)` followed by `setHours(h, m, 0, 0)`, in minutes. -/
def eventEndMinutes (e : Event) : Nat :=
  e.endDateDay * 1440 + e.endTimeH * 60 + e.endTimeM

/-- The sweep's action on one event drawn from the
`status: { $nin: ['completed', 'cancelled'] }` query. -/
def autoCompleteOne (now : Nat) (e : Event) : Event :=
  if e.status = "completed" ∨ e.status = "cancelled" then e
  else if eventEndMinutes e ≤ now then { e with status := "completed" } else e

/-- One run of `autoCompleteEvents` over the stored events. -/
def autoCompleteEvents (now : Nat) (events : List Event) : List Event :=
  events.map (autoCompleteOne now)

/-- Modelled from the spec side of claim C5: the event's "computed
end-datetime", which the spec says is the multi-slot end for a multi-day event
and `endDate`+`endTime` otherwise. -/
def specEventEndMinutes (e : Event) : Nat :=
  match e.dateTimeSlots.getLast? with
  | some s => s.endDay * 1440 + s.endH * 60 + s.endM
  | none => eventEndMinutes e

/-! ### Past-availability cleanup
(`cleanupPastLocationAvailabilities`, `src/routes/locationAvailability.ts`
lines 494–522, and `cleanupPastResourceAvailabilities` in the
resource-availability routes, identical logic)

`deleteMany({ date: { $lt: todayStr } })` where `date` is a `YYYY-MM-DD` string
and `todayStr` is today's date-only ISO string; `$lt` on strings is
lexicographic. -/

/-- An availability override row, as far as the cleanup is concerned: both the
location and the resource collections key the deletion on the `date` string. -/
structure AvailabilityRow where
  rowId : Nat
  date : String
  deriving DecidableEq

/-- Result envelope of a cleanup run. -/
structure CleanupResult where
  success : Bool
  deletedCount : Nat
  deriving DecidableEq

/-- `cleanupPastLocationAvailabilities`: delete the rows with `date < todayStr`,
report how many were deleted, and return the surviving rows. -/
def cleanupPastLocationAvailabilities (todayStr : String) (rows : List AvailabilityRow) :
    CleanupResult × List AvailabilityRow :=
  (⟨true, (rows.filter (fun r => r.date < todayStr)).length⟩,
   rows.filter (fun r => ¬ r.date < todayStr))

/-- `cleanupPastResourceAvailabilities`: byte-for-byte the same deletion logic
on the resource-availability collection. -/
def cleanupPastResourceAvailabilities (todayStr : String) (rows : List AvailabilityRow) :
    CleanupResult × List AvailabilityRow :=
  (⟨true, (rows.filter (fun r => r.date < todayStr)).length⟩,
   rows.filter (fun r => ¬ r.date < todayStr))

/-! ### Read-time availability recomputation
(GET `/tagged` lines 812–868 and GET `/my` lines 919–981 of
`src/routes/events.ts`, identical per-allocation logic)

For each allocation: find the department catalog by name, find the catalog
entry whose `text` equals the allocation's `name`, look up a
`ResourceAvailability` override for `(departmentId, requirementId, eventDate)`
where `eventDate` is the event's start date (`YYYY-MM-DD`); if an override
exists use its quantity, else if the catalog entry's `totalQuantity` is truthy
use it, else leave the stored value. -/

/-- A department catalog entry (`Department.requirements[i]`,
`src/models/Department.ts`; the schema constrains `totalQuantity` to `min: 1`). -/
structure CatalogEntry where
  rid : Nat
  text : String
  totalQuantity : Option Nat
  deriving DecidableEq

/-- A Department document with its requirement catalog. -/
structure Department where
  did : Nat
  name : String
  requirements : List CatalogEntry
  deriving DecidableEq

/-- A `ResourceAvailability` document (date-specific override,
`src/models/ResourceAvailability.ts`); unique per
`(departmentId, requirementId, date)`. -/
structure ResourceAvailability where
  departmentId : Nat
  requirementId : Nat
  date : String
  quantity : Nat
  deriving DecidableEq

/-- The per-allocation recomputation body shared by GET `/my` and
GET `/tagged`. -/
def recomputeTotalQuantity (departments : List Department)
    (avails : List ResourceAvailability) (eventDate deptName : String)
    (alloc : Allocation) : Allocation :=
  match departments.find? (fun d => d.name == deptName) with
  | none => alloc
  | some d =>
    match d.requirements.find? (fun r => r.text == alloc.name) with
    | none => alloc
    | some dr =>
      match avails.find? (fun a =>
          a.departmentId == d.did && a.requirementId == dr.rid && a.date == eventDate) with
      | some a => { alloc with totalQuantity := some a.quantity }
      | none =>
        if truthyNat dr.totalQuantity then { alloc with totalQuantity := dr.totalQuantity }
        else alloc

/-- The listing endpoints map the recomputation over every allocation of every
department, with `eventDate` taken from the event's start date. -/
def recomputeEvent (departments : List Department)
    (avails : List ResourceAvailability) (e : Event) : Event :=
  { e with departmentRequirements := e.departmentRequirements.map (fun p =>
      (p.1, p.2.map (recomputeTotalQuantity departments avails e.startDateISO p.1))) }

/-- Modelled from the spec side of claim C6: the value the listing is said to
show — the override's quantity when one exists for the event's start date, else
the catalog default when the entry has one, else the stored value. -/
def specListedQuantity (departments : List Department)
    (avails : List ResourceAvailability) (eventDate deptName : String)
    (alloc : Allocation) : Option Nat :=
  match departments.find? (fun d => d.name == deptName) with
  | none => alloc.totalQuantity
  | some d =>
    match d.requirements.find? (fun r => r.text == alloc.name) with
    | none => alloc.totalQuantity
    | some dr =>
      match avails.find? (fun a =>
          a.departmentId == d.did && a.requirementId == dr.rid && a.date == eventDate) with
      | some a => some a.quantity
      | none =>
        match dr.totalQuantity with
        | some n => some n
        | none => alloc.totalQuantity

/-! ### The derived `taggedDepartments` invariant (spec §3 / §8) -/

/-- The keys of `departmentRequirements` whose allocation list is non-empty. -/
def nonEmptyKeys (m : ReqMap) : List String :=
  (m.filter (fun p => ¬ p.2.isEmpty)).map (·.1)

/-- Executable form of the invariant: `taggedDepartments` and the non-empty
keys of `departmentRequirements` contain the same names. -/
def taggedOk (e : Event) : Bool :=
  e.taggedDepartments.all (fun d => (nonEmptyKeys e.departmentRequirements).contains d) &&
  (nonEmptyKeys e.departmentRequirements).all (fun d => e.taggedDepartments.contains d)

/-- `taggedDepartments` equals exactly the set of keys of
`departmentRequirements` whose allocation list is non-empty. -/
def taggedInvariant (e : Event) : Prop := taggedOk e = true

/-! ### Concrete fixtures used by counterexamples and witnesses -/

/-- A typical stored allocation. -/
def baseAlloc : Allocation :=
  { id := "r1", name := "Chairs", type := "physical", selected := true
    quantity := some 5, notes := some "", totalQuantity := some 10
    isAvailable := some true, availabilityNotes := ""
    status := "pending", requirementsStatus := none, declineReason := none
    departmentNotes := none, lastUpdated := none }

/-- A well-formed submitted event with one tagged department holding one
allocation. -/
def sampleEvent : Event :=
  { status := "submitted", reason := none
    taggedDepartments := ["OPG"]
    departmentRequirements := [("OPG", [baseAlloc])]
    endDateDay := 0, endTimeH := 17, endTimeM := 0
    dateTimeSlots := [], startDateISO := "2025-01-01" }

end PGB

namespace PGB

/-! ## Claim theorems -/

/-- C2: a status update to `'approved'` succeeds and rewrites
`departmentRequirements` so that every allocation of every department gets
`requirementsStatus = 'released'` with every other field — in particular
`status` — unchanged. -/
theorem c2_approve_releases_all (role : String) (e : Event) (reason : Option String) :
    (patchEventStatus role e "approved" reason).httpStatus = 200 ∧
    (patchEventStatus role e "approved" reason).event.status = "approved" ∧
    (patchEventStatus role e "approved" reason).event.departmentRequirements =
      e.departmentRequirements.map (fun p =>
        (p.1, p.2.map (fun a => { a with requirementsStatus := some "released" }))) := by
  simp [patchEventStatus, releaseAll]

/-- C3: a status update to `'cancelled'` succeeds and rewrites
`departmentRequirements` so that every allocation of every department has
`status = 'pending'` and cleared `declineReason`/`notes`, with every other
field unchanged — regardless of each allocation's prior state. -/
theorem c3_cancel_resets_all (role : String) (e : Event) (reason : Option String) :
    (patchEventStatus role e "cancelled" reason).httpStatus = 200 ∧
    (patchEventStatus role e "cancelled" reason).event.status = "cancelled" ∧
    (patchEventStatus role e "cancelled" reason).event.departmentRequirements =
      e.departmentRequirements.map (fun p =>
        (p.1, p.2.map (fun a =>
          { a with status := "pending", declineReason := none, notes := none }))) := by
  refine ⟨?_, ?_, ?_⟩ <;> simp [patchEventStatus, resetAll] <;> split <;> rfl

/-- C4: the PATCH `/:id/status` handler — whose own comment says
"Admin only - Approve/Reject" — performs the `submitted → approved` transition
for a caller whose role is `'department'`, releasing every requirement, while
the sibling PUT `/:id/status` endpoint refuses the same caller with 403 and
leaves the event unchanged. -/
theorem c4_patch_status_ignores_role :
    (patchEventStatus "department" sampleEvent "approved" none).httpStatus = 200 ∧
    (patchEventStatus "department" sampleEvent "approved" none).event.status = "approved" ∧
    ((patchEventStatus "department" sampleEvent "approved" none).event.departmentRequirements.all
      (fun p => p.2.all (fun a => a.requirementsStatus == some "released"))) = true ∧
    (putEventStatus "department" sampleEvent "approved").httpStatus = 403 ∧
    (putEventStatus "department" sampleEvent "approved").event = sampleEvent := by
  decide

/-- Rows that survive the date cut contain nothing the cut would delete. -/
theorem filter_past_of_filter_not_past (today : String) (l : List AvailabilityRow) :
    (l.filter (fun r => ¬ r.date < today)).filter (fun r => r.date < today) = [] := by
  induction l with
  | nil => rfl
  | cons a t ih => by_cases h : a.date < today <;> simp [h, ih]

/-- Deleted and surviving rows partition the input. -/
theorem filter_past_partition (today : String) (l : List AvailabilityRow) :
    (l.filter (fun r => r.date < today)).length +
      (l.filter (fun r => ¬ r.date < today)).length = l.length := by
  have h := List.length_eq_length_filter_add (l := l) (fun r => decide (r.date < today))
  simpa [← decide_not, not_lt] using h.symm

/-- C8: each cleanup (location and resource) deletes exactly the rows whose
date is strictly before today under the date-only string comparison, reports a
`deletedCount` equal to the number of rows removed, and a second immediate run
deletes zero rows and leaves the surviving rows untouched. -/
theorem c8_cleanup_idempotent (today : String) (locRows resRows : List AvailabilityRow) :
    (cleanupPastLocationAvailabilities today locRows).2 =
        locRows.filter (fun r => ¬ r.date < today) ∧
    (cleanupPastLocationAvailabilities today locRows).1.deletedCount =
        (locRows.filter (fun r => r.date < today)).length ∧
    (cleanupPastLocationAvailabilities today locRows).1.deletedCount +
        (cleanupPastLocationAvailabilities today locRows).2.length = locRows.length ∧
    (cleanupPastLocationAvailabilities today
        (cleanupPastLocationAvailabilities today locRows).2).1.deletedCount = 0 ∧
    (cleanupPastLocationAvailabilities today
        (cleanupPastLocationAvailabilities today locRows).2).2 =
        (cleanupPastLocationAvailabilities today locRows).2 ∧
    (cleanupPastResourceAvailabilities today resRows).2 =
        resRows.filter (fun r => ¬ r.date < today) ∧
    (cleanupPastResourceAvailabilities today resRows).1.deletedCount =
        (resRows.filter (fun r => r.date < today)).length ∧
    (cleanupPastResourceAvailabilities today resRows).1.deletedCount +
        (cleanupPastResourceAvailabilities today resRows).2.length = resRows.length ∧
    (cleanupPastResourceAvailabilities today
        (cleanupPastResourceAvailabilities today resRows).2).1.deletedCount = 0 ∧
    (cleanupPastResourceAvailabilities today
        (cleanupPastResourceAvailabilities today resRows).2).2 =
        (cleanupPastResourceAvailabilities today resRows).2 := by
  refine ⟨rfl, rfl, filter_past_partition today locRows, ?_, ?_, rfl, rfl,
    filter_past_partition today resRows, ?_, ?_⟩ <;>
    simp [cleanupPastLocationAvailabilities, cleanupPastResourceAvailabilities,
      filter_past_of_filter_not_past, List.filter_filter]

/-- Updating the first allocation matching `rid` with an id-preserving `f`
makes the first match of the updated list `f` of the old first match. -/
theorem find?_updateFirstIn (l : List Allocation) (rid : String)
    (f : Allocation → Allocation) (hid : ∀ a, (f a).id = a.id) (a0 : Allocation)
    (h : l.find? (fun a => a.id == rid) = some a0) :
    (updateFirstIn l rid f).find? (fun a => a.id == rid) = some (f a0) := by
  induction l with
  | nil => simp at h
  | cons a t ih =>
    by_cases hh : a.id == rid
    · rw [List.find?_cons_of_pos (p := fun x : Allocation => x.id == rid) t hh] at h
      cases h
      simp only [updateFirstIn, hh, if_true]
      rw [List.find?_cons_of_pos (p := fun x : Allocation => x.id == rid)]
      simp [hid, hh]
    · rw [List.find?_cons_of_neg (p := fun x : Allocation => x.id == rid) t (by simpa using hh)] at h
      simp only [updateFirstIn, hh, if_false, Bool.false_eq_true]
      rw [List.find?_cons_of_neg (p := fun x : Allocation => x.id == rid) _ (by simpa using hh)]
      exact ih h

/-- Map-level version of `find?_updateFirstIn`: the handlers' in-place update
of the first matching allocation is what a later first-match lookup sees. -/
theorem findFirstAlloc_updateFirstInMap (m : ReqMap) (rid : String)
    (f : Allocation → Allocation) (hid : ∀ a, (f a).id = a.id) (a0 : Allocation)
    (h : findFirstAlloc m rid = some a0) :
    findFirstAlloc (updateFirstInMap m rid f) rid = some (f a0) := by
  induction m with
  | nil => simp [findFirstAlloc] at h
  | cons p rest ih =>
    obtain ⟨d, l⟩ := p
    by_cases hfind : (l.find? (fun a => a.id == rid)).isSome
    · obtain ⟨a1, ha1⟩ := Option.isSome_iff_exists.mp hfind
      have hpa : (a1.id == rid) = true := List.find?_some (p := fun x : Allocation => x.id == rid) ha1
      have hany : l.any (fun a => a.id == rid) = true :=
        List.any_eq_true.mpr ⟨a1, List.mem_of_find?_eq_some ha1, hpa⟩
      have h0 : a1 = a0 := by
        simp only [findFirstAlloc, ha1] at h
        exact Option.some.inj h
      subst h0
      simp only [updateFirstInMap, hany, if_true, findFirstAlloc]
      rw [find?_updateFirstIn l rid f hid a1 ha1]
    · have hnone : l.find? (fun a => a.id == rid) = none :=
        Option.not_isSome_iff_eq_none.mp hfind
      have hany : l.any (fun a => a.id == rid) = false := by
        rw [List.any_eq_false]
        intro a ha
        exact List.find?_eq_none.mp hnone a ha
      simp only [findFirstAlloc, hnone] at h
      simp only [updateFirstInMap, hany, Bool.false_eq_true, if_false, findFirstAlloc, hnone]
      exact ih h

/-- C9: when the caller's department is tagged and the allocation exists, a
failure while persisting the Notification/StatusNotification rows
(`notifFails = true`) does not fail the primary mutation: the response is still
200/success, the allocation's new status is saved on the event, and the
post-state event is exactly the one produced when notification persistence
succeeds. -/
theorem c9_notification_failure_soft (callerDept : String) (e : Event)
    (rid st : String) (dr : Option String) (nowIso : String) (a0 : Allocation)
    (htag : e.taggedDepartments.contains callerDept = true)
    (hfound : findFirstAlloc e.departmentRequirements rid = some a0) :
    (updateRequirementStatus callerDept e rid st dr nowIso true).httpStatus = 200 ∧
    (updateRequirementStatus callerDept e rid st dr nowIso true).success = true ∧
    (findFirstAlloc
        (updateRequirementStatus callerDept e rid st dr nowIso true).event.departmentRequirements
        rid).map (fun a => a.status) = some st ∧
    (updateRequirementStatus callerDept e rid st dr nowIso true).event =
      (updateRequirementStatus callerDept e rid st dr nowIso false).event := by
  have hup := findFirstAlloc_updateFirstInMap e.departmentRequirements rid
    (fun a =>
      let a1 : Allocation := { a with status := st, lastUpdated := some nowIso }
      if st = "declined" ∧ truthyStr dr then { a1 with declineReason := dr } else a1)
    (by intro a; dsimp only; split <;> rfl) a0 hfound
  refine ⟨?_, ?_, ?_, ?_⟩ <;>
    simp only [updateRequirementStatus, htag, not_true_eq_false, if_false, hfound] <;>
    try rfl
  rw [hup]
  dsimp only [Option.map_some]
  split <;> rfl

/-- C10: the per-allocation status update validates nothing about the supplied
status: for an arbitrary string `st`, a tagged caller updating an existing
allocation gets 200/success and the allocation is stored with exactly that
string as `status` and the current timestamp as `lastUpdated`. -/
theorem c10_status_not_validated (callerDept : String) (e : Event)
    (rid st : String) (dr : Option String) (nowIso : String) (notifFails : Bool)
    (a0 : Allocation)
    (htag : e.taggedDepartments.contains callerDept = true)
    (hfound : findFirstAlloc e.departmentRequirements rid = some a0) :
    (updateRequirementStatus callerDept e rid st dr nowIso notifFails).httpStatus = 200 ∧
    (updateRequirementStatus callerDept e rid st dr nowIso notifFails).success = true ∧
    (findFirstAlloc
        (updateRequirementStatus callerDept e rid st dr nowIso notifFails).event.departmentRequirements
        rid).map (fun a => (a.status, a.lastUpdated)) = some (st, some nowIso) := by
  have hup := findFirstAlloc_updateFirstInMap e.departmentRequirements rid
    (fun a =>
      let a1 : Allocation := { a with status := st, lastUpdated := some nowIso }
      if st = "declined" ∧ truthyStr dr then { a1 with declineReason := dr } else a1)
    (by intro a; dsimp only; split <;> rfl) a0 hfound
  refine ⟨?_, ?_, ?_⟩ <;>
    simp only [updateRequirementStatus, htag, not_true_eq_false, if_false, hfound] <;>
    try rfl
  rw [hup]
  dsimp only [Option.map_some]
  split <;> rfl

/-- Witness for C9 at a concrete tagged caller and existing allocation. -/
theorem c9_notification_failure_soft_witness :
    (updateRequirementStatus "OPG" sampleEvent "r1" "confirmed" none "2025-01-02T08:00:00Z"
      true).httpStatus = 200 ∧
    (updateRequirementStatus "OPG" sampleEvent "r1" "confirmed" none "2025-01-02T08:00:00Z"
      true).success = true ∧
    (findFirstAlloc
        (updateRequirementStatus "OPG" sampleEvent "r1" "confirmed" none "2025-01-02T08:00:00Z"
          true).event.departmentRequirements "r1").map (fun a => a.status) = some "confirmed" ∧
    (updateRequirementStatus "OPG" sampleEvent "r1" "confirmed" none "2025-01-02T08:00:00Z"
      true).event =
      (updateRequirementStatus "OPG" sampleEvent "r1" "confirmed" none "2025-01-02T08:00:00Z"
        false).event :=
  c9_notification_failure_soft "OPG" sampleEvent "r1" "confirmed" none "2025-01-02T08:00:00Z"
    baseAlloc (by decide) (by decide)

/-- Witness for C10 at a concrete non-enum status string. -/
theorem c10_status_not_validated_witness :
    (updateRequirementStatus "OPG" sampleEvent "r1" "totally-bogus-status" none
      "2025-01-02T08:00:00Z" false).httpStatus = 200 ∧
    (updateRequirementStatus "OPG" sampleEvent "r1" "totally-bogus-status" none
      "2025-01-02T08:00:00Z" false).success = true ∧
    (findFirstAlloc
        (updateRequirementStatus "OPG" sampleEvent "r1" "totally-bogus-status" none
          "2025-01-02T08:00:00Z" false).event.departmentRequirements "r1").map
        (fun a => (a.status, a.lastUpdated)) =
      some ("totally-bogus-status", some "2025-01-02T08:00:00Z") :=
  c10_status_not_validated "OPG" sampleEvent "r1" "totally-bogus-status" none
    "2025-01-02T08:00:00Z" false baseAlloc (by decide) (by decide)

/-- When no allocation list is empty, the non-empty keys are all the keys. -/
theorem nonEmptyKeys_eq_keys (m : ReqMap) (h : ∀ p ∈ m, p.2 ≠ []) :
    nonEmptyKeys m = m.map (·.1) := by
  unfold nonEmptyKeys
  rw [List.filter_eq_self.mpr]
  intro p hp
  simpa using h p hp

/-- Every list contains each of its own members. -/
theorem all_contains_self (l : List String) : l.all (fun d => l.contains d) = true := by
  rw [List.all_eq_true]
  intro d hd
  simpa using hd

/-- `taggedOk` only looks at `taggedDepartments` and the non-empty keys. -/
theorem taggedOk_congr (e e' : Event)
    (ht : e'.taggedDepartments = e.taggedDepartments)
    (hm : nonEmptyKeys e'.departmentRequirements = nonEmptyKeys e.departmentRequirements) :
    taggedOk e' = taggedOk e := by
  unfold taggedOk
  rw [ht, hm]

/-- Mapping a function over every allocation list keeps the non-empty keys. -/
theorem nonEmptyKeys_map_map (m : ReqMap) (f : Allocation → Allocation) :
    nonEmptyKeys (m.map (fun p => (p.1, p.2.map f))) = nonEmptyKeys m := by
  induction m with
  | nil => rfl
  | cons p t ih =>
    obtain ⟨k, l⟩ := p
    cases l with
    | nil => simpa [nonEmptyKeys, List.filter_cons] using ih
    | cons x xs =>
      simp only [nonEmptyKeys, List.map_cons, List.filter_cons] at ih ⊢
      simpa using ih

/-- `pushAlloc` never creates an empty allocation list. -/
theorem pushAlloc_no_empty (m : ReqMap) (dept : String) (a : Allocation)
    (h : ∀ p ∈ m, p.2 ≠ []) : ∀ p ∈ pushAlloc m dept a, p.2 ≠ [] := by
  intro p hp
  unfold pushAlloc at hp
  split at hp
  · obtain ⟨q, hq, hpq⟩ := List.mem_map.mp hp
    by_cases hd : q.1 == dept
    · rw [if_pos hd] at hpq
      cases hpq
      simp
    · rw [if_neg hd] at hpq
      subst hpq
      exact h q hq
  · rcases List.mem_append.mp hp with h1 | h2
    · exact h p h1
    · simp only [List.mem_singleton] at h2
      subst h2
      simp

/-- Folding `pushAlloc` over the target departments keeps all lists non-empty. -/
theorem foldl_pushAlloc_no_empty (a : Allocation) (depts : List String) :
    ∀ m : ReqMap, (∀ p ∈ m, p.2 ≠ []) →
      ∀ p ∈ depts.foldl (fun acc d => pushAlloc acc d a) m, p.2 ≠ [] := by
  induction depts with
  | nil => intro m h; simpa using h
  | cons d t ih => intro m h; exact ih _ (pushAlloc_no_empty m d a h)

/-- Removing an allocation (dropping the key when its list empties) keeps all
remaining lists non-empty. -/
theorem removeFirstAlloc_no_empty (rid : String) :
    ∀ (m : ReqMap), (∀ p ∈ m, p.2 ≠ []) →
      ∀ (a : Allocation) (m1 : ReqMap), removeFirstAlloc m rid = some (a, m1) →
        ∀ p ∈ m1, p.2 ≠ [] := by
  intro m
  induction m with
  | nil => intro _ a m1 hr; simp [removeFirstAlloc] at hr
  | cons q rest ih =>
    intro h a m1 hr
    obtain ⟨d, l⟩ := q
    unfold removeFirstAlloc at hr
    cases hfind : l.find? (fun x : Allocation => x.id == rid) with
    | some a1 =>
      rw [hfind] at hr
      simp only [Option.some.injEq, Prod.mk.injEq] at hr
      obtain ⟨-, hm1⟩ := hr
      by_cases hemp : (l.filter (fun x : Allocation => x.id ≠ rid)).isEmpty
      · rw [if_pos hemp] at hm1
        subst hm1
        intro p hp
        exact h p (List.mem_cons_of_mem _ hp)
      · rw [if_neg hemp] at hm1
        subst hm1
        intro p hp
        rcases List.mem_cons.mp hp with hp1 | hp2
        · subst hp1
          intro hc
          exact hemp (List.isEmpty_iff.mpr hc)
        · exact h p (List.mem_cons_of_mem _ hp2)
    | none =>
      rw [hfind] at hr
      cases hrec : removeFirstAlloc rest rid with
      | none => rw [hrec] at hr; exact absurd hr (by simp)
      | some pr =>
        obtain ⟨a2, m2⟩ := pr
        rw [hrec] at hr
        simp only [Option.some.injEq, Prod.mk.injEq] at hr
        obtain ⟨-, hm1⟩ := hr
        subst hm1
        intro p hp
        rcases List.mem_cons.mp hp with hp1 | hp2
        · subst hp1
          exact h (d, l) (List.mem_cons_self _ _)
        · exact ih (fun p hp => h p (List.mem_cons_of_mem _ hp)) a2 m2 hrec p hp2

/-- A new-requirement body entry with `selected: true`. -/
def nrSelected : NewRequirement :=
  { id := "r9", name := "Tables", type := "physical", selected := true
    quantity := some 2, notes := none, totalQuantity := some 4, baseQuantity := none
    isAvailable := some true, availabilityNotes := none }

/-- A new-requirement body entry with `selected: false`. -/
def nrUnselected : NewRequirement := { nrSelected with selected := false }

/-- C1 fails on the code: starting from an event satisfying the invariant,
add-department with a requirements array whose entries are all unselected
returns 200, creates an empty allocation list for the new department and still
appends that department to `taggedDepartments`, breaking the invariant. -/
theorem c1_counterexample_add_department :
    taggedOk sampleEvent = true ∧
    (addDepartment "OPG" sampleEvent "BUDGET" [nrUnselected]).httpStatus = 200 ∧
    taggedOk (addDepartment "OPG" sampleEvent "BUDGET" [nrUnselected]).event = false := by
  decide

/-- C1 amended: when every allocation list of the event is non-empty and the
invariant holds, requirement re-tagging, approval and cancellation all leave a
state satisfying the invariant (re-tagging by recomputing `taggedDepartments`
from the map keys, approval and cancellation by changing neither the key set
nor any list's emptiness); add-department is excluded, as it can break the
invariant. -/
theorem c1_amended_tagged_invariant (callerDept role : String) (e : Event)
    (rid : String) (depts : List String) (reason : Option String)
    (h1 : ∀ p ∈ e.departmentRequirements, p.2 ≠ []) (h2 : taggedInvariant e) :
    taggedInvariant (changeRequirementDepartments callerDept e rid depts).event ∧
    taggedInvariant (patchEventStatus role e "approved" reason).event ∧
    taggedInvariant (patchEventStatus role e "cancelled" reason).event := by
  have hstatus : ∀ st : String,
      (patchEventStatus role e st reason).event.taggedDepartments = e.taggedDepartments := by
    intro st
    unfold patchEventStatus
    split
    · rfl
    · dsimp only
      split <;> split <;> split <;> rfl
  have hkeys : ∀ st : String,
      nonEmptyKeys (patchEventStatus role e st reason).event.departmentRequirements =
        nonEmptyKeys e.departmentRequirements := by
    intro st
    unfold patchEventStatus
    split
    · rfl
    · dsimp only
      split <;> split <;> split <;>
        simp only [releaseAll, resetAll, nonEmptyKeys_map_map]
  refine ⟨?_, ?_, ?_⟩
  · unfold changeRequirementDepartments
    by_cases hempt : depts.isEmpty
    · simpa [hempt] using h2
    · rw [if_neg (by simpa using hempt)]
      cases hrem : removeFirstAlloc e.departmentRequirements rid with
      | none => exact h2
      | some pr =>
        obtain ⟨a, m1⟩ := pr
        have hm1 := removeFirstAlloc_no_empty rid e.departmentRequirements h1 a m1 hrem
        have hm2 := foldl_pushAlloc_no_empty a depts m1 hm1
        unfold taggedInvariant taggedOk
        dsimp only
        rw [nonEmptyKeys_eq_keys _ hm2]
        rw [all_contains_self]
        rfl
  · unfold taggedInvariant at h2 ⊢
    rw [taggedOk_congr e _ (hstatus "approved") (hkeys "approved")]
    exact h2
  · unfold taggedInvariant at h2 ⊢
    rw [taggedOk_congr e _ (hstatus "cancelled") (hkeys "cancelled")]
    exact h2

/-- Witness for the amended C1 at a concrete well-formed event. -/
theorem c1_amended_tagged_invariant_witness :
    taggedInvariant (changeRequirementDepartments "OPG" sampleEvent "r1" ["PITO"]).event ∧
    taggedInvariant (patchEventStatus "admin" sampleEvent "approved" none).event ∧
    taggedInvariant (patchEventStatus "admin" sampleEvent "cancelled" none).event :=
  c1_amended_tagged_invariant "OPG" "admin" sampleEvent "r1" ["PITO"] none
    (by decide) (show taggedOk sampleEvent = true by decide)

/-- C7 fails on the code: requirement re-tagging and add-department never
check the caller's department — a caller from the untagged department `'HR'`
gets 200 from both, and both mutate the event. -/
theorem c7_counterexample_untagged_caller :
    sampleEvent.taggedDepartments.contains "HR" = false ∧
    (changeRequirementDepartments "HR" sampleEvent "r1" ["PITO"]).httpStatus = 200 ∧
    (changeRequirementDepartments "HR" sampleEvent "r1" ["PITO"]).event ≠ sampleEvent ∧
    (addDepartment "HR" sampleEvent "BUDGET" [nrSelected]).httpStatus = 200 ∧
    (addDepartment "HR" sampleEvent "BUDGET" [nrSelected]).event ≠ sampleEvent := by
  decide

/-- C7 amended: of the four department-scoped mutating endpoints, the
requirement-notes update and the per-allocation status update do check the
caller's department against `taggedDepartments` and answer 403 leaving the
event unchanged; requirement re-tagging and add-department perform no such
check. -/
theorem c7_amended_department_check (callerDept : String) (e : Event)
    (rid st : String) (dr notes : Option String) (nowIso : String) (notifFails : Bool)
    (huntagged : e.taggedDepartments.contains callerDept = false) :
    (updateRequirementStatus callerDept e rid st dr nowIso notifFails).httpStatus = 403 ∧
    (updateRequirementStatus callerDept e rid st dr nowIso notifFails).success = false ∧
    (updateRequirementStatus callerDept e rid st dr nowIso notifFails).event = e ∧
    (updateRequirementNotes callerDept e rid notes nowIso).httpStatus = 403 ∧
    (updateRequirementNotes callerDept e rid notes nowIso).success = false ∧
    (updateRequirementNotes callerDept e rid notes nowIso).event = e := by
  have h' : callerDept ∉ e.taggedDepartments := by simpa using huntagged
  refine ⟨?_, ?_, ?_, ?_, ?_, ?_⟩ <;>
    simp [updateRequirementStatus, updateRequirementNotes, h']

/-- Witness for the amended C7 at a concrete untagged caller. -/
theorem c7_amended_department_check_witness :
    (updateRequirementStatus "HR" sampleEvent "r1" "confirmed" none "t" false).httpStatus = 403 ∧
    (updateRequirementStatus "HR" sampleEvent "r1" "confirmed" none "t" false).success = false ∧
    (updateRequirementStatus "HR" sampleEvent "r1" "confirmed" none "t" false).event =
      sampleEvent ∧
    (updateRequirementNotes "HR" sampleEvent "r1" none "t").httpStatus = 403 ∧
    (updateRequirementNotes "HR" sampleEvent "r1" none "t").success = false ∧
    (updateRequirementNotes "HR" sampleEvent "r1" none "t").event = sampleEvent :=
  c7_amended_department_check "HR" sampleEvent "r1" "confirmed" none none "t" false (by decide)

/-- A submitted multi-day event whose last `dateTimeSlots` entry ends on day 3
at 17:00 while the top-level `endDate`/`endTime` fields point to day 100. -/
def multiDayEvent : Event :=
  { status := "submitted", reason := none
    taggedDepartments := ["OPG"]
    departmentRequirements := [("OPG", [baseAlloc])]
    endDateDay := 100, endTimeH := 10, endTimeM := 0
    dateTimeSlots := [⟨2, 12, 0⟩, ⟨3, 17, 0⟩]
    startDateISO := "2025-01-01" }

/-- C5 fails on the code: for a multi-day event whose multi-slot end (day 3,
17:00 — minute 5340) is well before now (minute 50000), the sweep leaves the
event `'submitted'`, because it only ever reads `endDate`/`endTime`
(day 100 — minute 144600, still in the future). -/
theorem c5_counterexample_slots_ignored :
    multiDayEvent.status ≠ "completed" ∧ multiDayEvent.status ≠ "cancelled" ∧
    specEventEndMinutes multiDayEvent ≤ 50000 ∧
    autoCompleteEvents 50000 [multiDayEvent] = [multiDayEvent] ∧
    multiDayEvent.status = "submitted" := by
  decide

/-- C5 amended: a single sweep run never changes an event already in
`'completed'` or `'cancelled'`, and for every other event it sets
`status = 'completed'` exactly when the end-datetime computed from `endDate`
and `endTime` — the only fields the sweep reads; `dateTimeSlots` are ignored —
is at or before now, leaving the event unchanged otherwise. -/
theorem c5_amended_sweep (now : Nat) (events : List Event) (i : Nat) (e : Event)
    (h : events[i]? = some e) :
    ∃ e', (autoCompleteEvents now events)[i]? = some e' ∧
      ((e.status = "completed" ∨ e.status = "cancelled") → e' = e) ∧
      (¬ (e.status = "completed" ∨ e.status = "cancelled") → eventEndMinutes e ≤ now →
        e' = { e with status := "completed" }) ∧
      (¬ (e.status = "completed" ∨ e.status = "cancelled") → now < eventEndMinutes e →
        e' = e) := by
  refine ⟨autoCompleteOne now e, ?_, ?_, ?_, ?_⟩
  · simp [autoCompleteEvents, h]
  · intro ht
    unfold autoCompleteOne
    rw [if_pos ht]
  · intro ht hle
    unfold autoCompleteOne
    rw [if_neg ht, if_pos hle]
  · intro ht hgt
    unfold autoCompleteOne
    rw [if_neg ht, if_neg (by omega)]

/-- Witness for the amended C5 at a concrete event list. -/
theorem c5_amended_sweep_witness :
    ∃ e', (autoCompleteEvents 100000 [sampleEvent])[0]? = some e' ∧
      ((sampleEvent.status = "completed" ∨ sampleEvent.status = "cancelled") →
        e' = sampleEvent) ∧
      (¬ (sampleEvent.status = "completed" ∨ sampleEvent.status = "cancelled") →
        eventEndMinutes sampleEvent ≤ 100000 → e' = { sampleEvent with status := "completed" }) ∧
      (¬ (sampleEvent.status = "completed" ∨ sampleEvent.status = "cancelled") →
        100000 < eventEndMinutes sampleEvent → e' = sampleEvent) :=
  c5_amended_sweep 100000 [sampleEvent] 0 sampleEvent rfl

/-- The per-allocation recomputation agrees with the claim's override-wins /
catalog-default / stored-value rule, given the Department schema's `min: 1`
constraint on catalog `totalQuantity`. -/
theorem recompute_eq_spec (departments : List Department)
    (avails : List ResourceAvailability) (eventDate deptName : String) (a : Allocation)
    (hschema : ∀ d ∈ departments, ∀ r ∈ d.requirements, r.totalQuantity ≠ some 0) :
    recomputeTotalQuantity departments avails eventDate deptName a =
      { a with totalQuantity := specListedQuantity departments avails eventDate deptName a } := by
  unfold recomputeTotalQuantity specListedQuantity
  cases hd : departments.find? (fun d => d.name == deptName) with
  | none => rfl
  | some d =>
    dsimp only
    cases he : d.requirements.find? (fun r => r.text == a.name) with
    | none => rfl
    | some dr =>
      dsimp only
      cases ha : avails.find? (fun av =>
          av.departmentId == d.did && av.requirementId == dr.rid && av.date == eventDate) with
      | some av => rfl
      | none =>
        dsimp only
        have hne : dr.totalQuantity ≠ some 0 :=
          hschema d (List.mem_of_find?_eq_some hd) dr (List.mem_of_find?_eq_some he)
        cases hq : dr.totalQuantity with
        | none => simp [truthyNat, hq]
        | some n =>
          have hn : n ≠ 0 := by
            intro h0
            exact hne (by rw [hq, h0])
          simp [truthyNat, hq, hn]

/-- C6: the listing endpoints' availability recomputation rewrites every
allocation of every department so that its `totalQuantity` is the
date-specific override's quantity when one exists for the event's start date
and the matching catalog requirement, else the catalog entry's default total
quantity when it has one, else the stored value — and changes nothing else. -/
theorem c6_recompute_availability (departments : List Department)
    (avails : List ResourceAvailability) (e : Event)
    (hschema : ∀ d ∈ departments, ∀ r ∈ d.requirements, r.totalQuantity ≠ some 0) :
    (recomputeEvent departments avails e).departmentRequirements =
      e.departmentRequirements.map (fun p =>
        (p.1, p.2.map (fun a =>
          { a with totalQuantity :=
              specListedQuantity departments avails e.startDateISO p.1 a }))) := by
  unfold recomputeEvent
  dsimp only
  apply List.map_congr_left
  intro p hp
  refine congrArg (fun l => (p.1, l)) ?_
  apply List.map_congr_left
  intro a ha
  exact recompute_eq_spec departments avails e.startDateISO p.1 a hschema

/-- A department catalog with one entry matching `baseAlloc` by text. -/
def catalogDept : Department :=
  { did := 1, name := "OPG"
    requirements := [{ rid := 7, text := "Chairs", totalQuantity := some 20 }] }

/-- A date-specific override for that entry on the sample event's start date. -/
def overrideRow : ResourceAvailability :=
  { departmentId := 1, requirementId := 7, date := "2025-01-01", quantity := 3 }

/-- Witness for C6 at a concrete catalog, override and event. -/
theorem c6_recompute_availability_witness :
    (recomputeEvent [catalogDept] [overrideRow] sampleEvent).departmentRequirements =
      sampleEvent.departmentRequirements.map (fun p =>
        (p.1, p.2.map (fun a =>
          { a with totalQuantity :=
              specListedQuantity [catalogDept] [overrideRow] sampleEvent.startDateISO p.1 a }))) :=
  c6_recompute_availability [catalogDept] [overrideRow] sampleEvent (by decide)

end PGB
